import Mathlib

/-!
Verification of the session/token lifecycle and the resilient outbound-call
executor of the inoxdev backend.

The definitions below are a shallow embedding of:
  * `src/utils/gemini.js` — the `rateLimiter` object (sliding-window admission
    check) and the retry loop of `generateProjectSuggestions`;
  * `src/routes/auth.js` — the `/login`, `/refresh` and `/logout-all` handlers;
  * the `User` schema methods of `src/server.js` (`generateAuthToken`,
    `generateRefreshToken`);
  * the `auth` / `authorize` middleware (`src/middleware/auth.js`).

Time is modelled in milliseconds as `Int` (the JS code uses `Date.now()`).
JSON-web-tokens are modelled as records carrying their payload, expiry and the
secret they were signed with; `jwtVerify` accepts a token iff the secret
matches and the expiry has not passed, mirroring `jsonwebtoken.verify`.
-/

namespace InoxDev

/- ### Rate limiter (src/utils/gemini.js, lines 8–31) -/

/-- Models `rateLimiter.windowMs = 60 * 1000` (one minute, in ms). -/
def windowMs : Int := 60 * 1000

/-- Models `rateLimiter.maxRequests = 60` (requests per minute). -/
def maxRequests : Nat := 60

/-- Models `this.requests.filter(time => now - time < this.windowMs)` — drop
timestamps that have left the sliding window. -/
def pruneRequests (now : Int) (requests : List Int) : List Int :=
  requests.filter (fun time => now - time < windowMs)

/-- Models `rateLimiter.canMakeRequest()`: prune, reject when the window is at
capacity, otherwise record the new timestamp.  Returns the admission verdict
together with the updated `rateLimiter.requests` list. -/
def canMakeRequest (now : Int) (requests : List Int) : Bool × List Int :=
  if maxRequests ≤ (pruneRequests now requests).length then
    (false, pruneRequests now requests)
  else (true, pruneRequests now requests ++ [now])

/-- Models `rateLimiter.getRetryDelay()`: time until the oldest recorded request
leaves the window (`0` when the list is empty). -/
def getRetryDelay (now : Int) (requests : List Int) : Int :=
  match requests.head? with
  | some oldestRequest => windowMs - (now - oldestRequest)
  | none => 0

/-- A sequence of admission checks at the given call times, threading the
`rateLimiter.requests` state; returns the verdicts and the final state. -/
def runCalls (times : List Int) (requests : List Int) : List Bool × List Int :=
  match times with
  | [] => ([], requests)
  | t :: ts =>
    let r := canMakeRequest t requests
    let rest := runCalls ts r.2
    (r.1 :: rest.1, rest.2)

/- ### Retry loop of `generateProjectSuggestions` (src/utils/gemini.js, 34–137) -/

/-- The `error.code` value of an axios connect/read timeout. -/
def codeConnAborted : String := "ECONNABORTED"

/-- The `error.code` value of a socket timeout. -/
def codeTimedOut : String := "ETIMEDOUT"

/-- The fields of an axios error the handler inspects: `error.response?.status`
(absent when the request never got a response, e.g. on a timeout) and
`error.code`. -/
structure AxiosError where
  responseStatus : Option Nat
  code : Option String
deriving DecidableEq

/-- Body of a Gemini response: `result.candidates`, each candidate reduced to
the list of its `content.parts[*].text` strings. -/
structure GeminiData where
  candidates : List (List String)
deriving DecidableEq

/-- Outcome of one `axios.post` attempt: either the promise resolves with a
status and body, or it rejects with an error. -/
inductive AttemptResult where
  | success (status : Nat) (data : GeminiData)
  | failure (e : AxiosError)
deriving DecidableEq

/-- How the `while (retryCount < maxRetries)` loop exits: `broke` via the
status-200 `break`, or `threw` by re-raising an error.  `used` counts the
attempts consumed; `delayAcc` the total backoff slept (ms). -/
inductive LoopExit where
  | broke (status : Nat) (data : GeminiData) (used : Nat) (delayAcc : Nat)
  | threw (e : AxiosError) (used : Nat) (delayAcc : Nat)
deriving DecidableEq

/-- Models `maxRetries = 3` — total attempts bound of the retry loop. -/
def maxRetries : Nat := 3

/-- Models `baseDelay = 1000` ms. -/
def baseDelay : Nat := 1000

/-- The retry loop of `generateProjectSuggestions` (lines 69–95).  Each
iteration consumes the next attempt outcome.  Only an error with
`error.response?.status === 429` increments `retryCount` and, while
`retryCount < maxRetries`, sleeps `baseDelay * 2 ** (retryCount - 1)` and
retries; every other error is re-thrown at once.  A resolved response with a
status other than 200 loops again without touching `retryCount`.  `none` means
the supplied attempt list ran out while the loop would have kept going. -/
def retryLoop (attempts : List AttemptResult) (retryCount used delayAcc : Nat) :
    Option LoopExit :=
  match attempts with
  | [] => none
  | a :: rest =>
    match a with
    | .success status data =>
      if status = 200 then some (.broke status data (used + 1) delayAcc)
      else retryLoop rest retryCount (used + 1) delayAcc
    | .failure e =>
      if e.responseStatus = some 429 then
        let rc := retryCount + 1
        let delay := baseDelay * 2 ^ (rc - 1)
        if rc < maxRetries then retryLoop rest rc (used + 1) (delayAcc + delay)
        else some (.threw e (used + 1) delayAcc)
      else some (.threw e (used + 1) delayAcc)

/-- The failures `generateProjectSuggestions` can surface to its caller: the
outer-catch translations (lines 116–135) — 429 exhaustion ("Service
temporarily unavailable…"), 403 ("API access denied…"),
`ECONNABORTED`/`ETIMEDOUT` ("Request timeout…"), and the generic fallback
("Failed to generate project suggestions…").  The rate-limit `Error` thrown
at line 39 never reaches the caller as its own kind: it is caught by the same
outer catch and, carrying neither `.response` nor `.code`, falls through to
the generic fallback, losing its retry-after text. -/
inductive GeminiFailure where
  | serviceUnavailable
  | apiAccessDenied
  | requestTimeout
  | genericFailure
deriving DecidableEq

/-- The outer `catch` (lines 116–135): checks `error.response?.status === 429`,
then `=== 403`, then `error.code` for the two timeout codes, else generic. -/
def mapCatchError (e : AxiosError) : GeminiFailure :=
  if e.responseStatus = some 429 then .serviceUnavailable
  else if e.responseStatus = some 403 then .apiAccessDenied
  else if e.code = some codeConnAborted ∨ e.code = some codeTimedOut then
    .requestTimeout
  else .genericFailure

/-- Lines 103–114: `result.candidates[0].content.parts[0].text` when the
structure checks pass, else the "Invalid response structure" path. -/
def extractText (result : GeminiData) : Option String :=
  match result.candidates with
  | parts :: _ =>
    match parts with
    | text :: _ => some text
    | [] => none
  | [] => none

/-- Observable outcome of one `generateProjectSuggestions` invocation: the
returned suggestions or the failure, the post-call `rateLimiter.requests`
state, the number of HTTP attempts made, and the total backoff slept (ms). -/
structure CallTrace where
  result : Except GeminiFailure String
  requests : List Int
  attemptsUsed : Nat
  totalDelay : Nat

/-- Models `generateProjectSuggestions` (lines 34–137), with the outbound attempts
supplied as an oracle list.  The pre-flight admission check (line 37) throws a
plain rate-limit `Error` (line 39) inside the function's own `try`, so it is
caught by the outer catch; having no `.response` and no `.code` it is
translated like the error value `⟨none, none⟩`, i.e. to the generic fallback
— the retry-after text of line 39 is swallowed.  Otherwise the retry loop
runs; on `break`, the payload extraction; thrown errors pass the outer catch.
`none` when the attempt oracle is too short for the loop. -/
def generateProjectSuggestions (now : Int) (requests : List Int)
    (attempts : List AttemptResult) : Option CallTrace :=
  let check := canMakeRequest now requests
  if check.1 = false then
    some ⟨.error (mapCatchError ⟨none, none⟩), check.2, 0, 0⟩
  else
    match retryLoop attempts 0 0 0 with
    | none => none
    | some (.broke _ data used delayAcc) =>
      match extractText data with
      | some text => some ⟨.ok text, check.2, used, delayAcc⟩
      | none => some ⟨.error .genericFailure, check.2, used, delayAcc⟩
    | some (.threw e used delayAcc) =>
      some ⟨.error (mapCatchError e), check.2, used, delayAcc⟩

/-- The spec's transient-failure class, stated for comparison with the code:
"on a transient failure (HTTP 429, or a connect/read timeout), retry …". -/
def isTransientSpec (e : AxiosError) : Bool :=
  e.responseStatus == some 429 || e.code == some codeConnAborted ||
    e.code == some codeTimedOut

/- ### Session manager: User model (src/server.js, 771–857) -/

/-- Models `role: enum ['admin', 'manager', 'employee']`. -/
inductive Role where
  | admin
  | manager
  | employee
deriving DecidableEq

/-- Claims of an access token: `{ userId, email, role }` (server.js 835–840). -/
structure AccessClaims where
  userId : Nat
  email : String
  role : Role
deriving DecidableEq

/-- Claims of a refresh token: `{ userId }` (server.js 848–849). -/
structure RefreshClaims where
  userId : Nat
deriving DecidableEq

/-- A signed compact token: payload, absolute expiry (ms) and the secret it was
signed with.  Equality of `Signed` values models string equality of the
encoded JWTs. -/
structure Signed (α : Type) where
  payload : α
  exp : Int
  signedWith : String
deriving DecidableEq

/-- Verification result of `jsonwebtoken.verify`: the payload, or the
`TokenExpiredError` / `JsonWebTokenError` rejections. -/
inductive VerifyResult (α : Type) where
  | ok (payload : α)
  | expired
  | invalid
deriving DecidableEq

/-- Models `jwt.verify(token, secret)` at clock `now`: signature (secret) mismatch is
`JsonWebTokenError`; an elapsed expiry is `TokenExpiredError`. -/
def jwtVerify {α : Type} (tok : Signed α) (secret : String) (now : Int) :
    VerifyResult α :=
  if tok.signedWith ≠ secret then .invalid
  else if tok.exp ≤ now then .expired
  else .ok tok.payload

/-- Models `process.env.JWT_SECRET` — the access-token signing secret. -/
def jwtSecret : String := "JWT_SECRET"

/-- Models `process.env.JWT_REFRESH_SECRET` — the refresh-token signing secret. -/
def jwtRefreshSecret : String := "JWT_REFRESH_SECRET"

/-- Access-token time to live: `expiresIn: '1h'`, in ms. -/
def accessTtlMs : Int := 60 * 60 * 1000

/-- Refresh-token time to live: `expiresIn: '7d'`, in ms. -/
def refreshTtlMs : Int := 7 * 24 * 60 * 60 * 1000

/-- A `User` document (src/server.js 772–813): the fields the session manager
reads or writes.  `password` holds the bcrypt hash, never the plaintext. -/
structure User where
  id : Nat
  name : String
  email : String
  password : String
  role : Role
  isActive : Bool
  refreshTokens : List (Signed RefreshClaims)
  lastLogin : Option Int
deriving DecidableEq

/-- Models `userSchema.methods.generateAuthToken` (835–844): sign
`{ userId, email, role }` with `JWT_SECRET`, 1h expiry. -/
def mkAccessToken (u : User) (now : Int) : Signed AccessClaims :=
  ⟨⟨u.id, u.email, u.role⟩, now + accessTtlMs, jwtSecret⟩

/-- Models `userSchema.methods.generateRefreshToken` (847–856): sign `{ userId }`
with `JWT_REFRESH_SECRET`, 7d expiry. -/
def mkRefreshToken (u : User) (now : Int) : Signed RefreshClaims :=
  ⟨⟨u.id⟩, now + refreshTtlMs, jwtRefreshSecret⟩

/-- Replace the user document with the matching `id` (a `user.save()` /
`findByIdAndUpdate` persistence write). -/
def updateUser (db : List User) (uid : Nat) (u : User) : List User :=
  db.map (fun v => if v.id = uid then u else v)

/- ### Session manager: route handlers (src/routes/auth.js) -/

/-- Outcome of `POST /api/auth/login` (117–195): the 401 "Invalid credentials"
rejection, or success carrying the new access and refresh tokens. -/
inductive LoginResult where
  | invalidCredentials
  | success (accessToken : Signed AccessClaims) (refreshToken : Signed RefreshClaims)
deriving DecidableEq

/-- The `/login` handler (137–185).  `User.findOne({ email, isActive: true })`;
no match → 401 "Invalid credentials"; a failed `comparePassword` → the same
401; otherwise generate both tokens (the refresh token is pushed onto
`user.refreshTokens` by `generateRefreshToken`), set `lastLogin`, and save.
`compare` stands for `bcrypt.compare` (an external collaborator). -/
def login (compare : String → String → Bool) (db : List User)
    (email password : String) (now : Int) : LoginResult × List User :=
  match db.find? (fun u => u.email == email && u.isActive) with
  | none => (.invalidCredentials, db)
  | some u =>
    if compare password u.password then
      let rt := mkRefreshToken u now
      let u' := { u with refreshTokens := u.refreshTokens ++ [rt],
                         lastLogin := some now }
      (.success (mkAccessToken u now) rt, updateUser db u.id u')
    else (.invalidCredentials, db)

/-- Outcome of `POST /api/auth/refresh` (200–249): the 401 "Refresh token not
provided", the 401 "Invalid refresh token" (produced both by the not-found
check at 221–226 and by the catch-all at 242–248, which also swallows the
`TokenExpiredError` of `jwt.verify`), or success with a fresh access token. -/
inductive RefreshResult where
  | noToken
  | invalidToken
  | success (accessToken : Signed AccessClaims)
deriving DecidableEq

/-- The `/refresh` handler (200–249).  Verify the cookie token against
`JWT_REFRESH_SECRET` — any `jwt.verify` throw lands in the catch-all, which
answers 401 "Invalid refresh token"; then
`User.findOne({ _id, 'refreshTokens.token': refreshToken, isActive: true })`;
no match → the same 401; otherwise respond with `user.generateAuthToken()`.
No persistence write happens on any path. -/
def refresh (db : List User) (cookie : Option (Signed RefreshClaims))
    (now : Int) : RefreshResult × List User :=
  match cookie with
  | none => (.noToken, db)
  | some tok =>
    match jwtVerify tok jwtRefreshSecret now with
    | .ok claims =>
      match db.find? (fun u =>
          u.id == claims.userId && decide (tok ∈ u.refreshTokens) && u.isActive) with
      | some u => (.success (mkAccessToken u now), db)
      | none => (.invalidToken, db)
    | .expired => (.invalidToken, db)
    | .invalid => (.invalidToken, db)

/-- The `/logout-all` handler (287–311):
`findByIdAndUpdate(userId, { $set: { refreshTokens: [] } })`. -/
def logoutAll (db : List User) (uid : Nat) : List User :=
  db.map (fun u => if u.id = uid then { u with refreshTokens := [] } else u)

/- ### Middleware (src/middleware/auth.js) -/

/-- The identity the `auth` middleware attaches as `req.user`. -/
structure ReqUser where
  userId : Nat
  email : String
  role : Role
  name : String
deriving DecidableEq

/-- Outcome of the `auth` middleware (13–68): unlike the refresh route it
distinguishes `JsonWebTokenError` ("Invalid token.") from `TokenExpiredError`
("Token expired."). -/
inductive AuthOutcome where
  | noToken
  | invalidToken
  | tokenExpired
  | userNotFoundOrInactive
  | ok (user : ReqUser)
deriving DecidableEq

/-- The `auth` middleware: verify the bearer token with `JWT_SECRET`, then
`User.findById` and require `isActive`. -/
def authMiddleware (db : List User) (header : Option (Signed AccessClaims))
    (now : Int) : AuthOutcome :=
  match header with
  | none => .noToken
  | some tok =>
    match jwtVerify tok jwtSecret now with
    | .invalid => .invalidToken
    | .expired => .tokenExpired
    | .ok claims =>
      match db.find? (fun u => u.id == claims.userId) with
      | none => .userNotFoundOrInactive
      | some u =>
        if u.isActive then .ok ⟨u.id, u.email, u.role, u.name⟩
        else .userNotFoundOrInactive

/-- Outcome of the `authorize(roles)` middleware (71–89). -/
inductive AuthzOutcome where
  | authRequired
  | insufficientPermissions
  | ok
deriving DecidableEq

/-- Models `authorize(roles = [])`: 401 when `req.user` is missing; 403 when `roles`
is non-empty and does not contain the user's role; otherwise pass. -/
def authorize (roles : List Role) (reqUser : Option ReqUser) : AuthzOutcome :=
  match reqUser with
  | none => .authRequired
  | some u =>
    if roles.length ≠ 0 ∧ ¬ (u.role ∈ roles) then .insufficientPermissions
    else .ok

/- ### Concrete fixtures used by witnesses and counterexamples -/

/-- An axios connect/read-timeout rejection: no response, `code` set. -/
def timeoutErr : AxiosError := ⟨none, some codeConnAborted⟩

/-- An HTTP 429 rejection. -/
def err429 : AxiosError := ⟨some 429, none⟩

/-- An HTTP 403 rejection. -/
def err403 : AxiosError := ⟨some 403, none⟩

/-- A well-formed Gemini response body. -/
def okBody : GeminiData := ⟨[["ok"]]⟩

/-- A refresh token for user 1 that expired at t = 0. -/
def rtokExpired : Signed RefreshClaims := ⟨⟨1⟩, 0, jwtRefreshSecret⟩

/-- A refresh token for user 1 valid until t = 604800000. -/
def rtokFresh : Signed RefreshClaims := ⟨⟨1⟩, refreshTtlMs, jwtRefreshSecret⟩

/-- An access token for user 1 valid until t = 3600000. -/
def atokFresh : Signed AccessClaims := ⟨⟨1, "a@b.com", .admin⟩, accessTtlMs, jwtSecret⟩

/-- An active user holding only the expired refresh token. -/
def aliceExpired : User := ⟨1, "Alice", "a@b.com", "hash1", .admin, true, [rtokExpired], none⟩

/-- An active user holding only the fresh refresh token. -/
def aliceFresh : User := ⟨1, "Alice", "a@b.com", "hash1", .admin, true, [rtokFresh], none⟩

/-- A deactivated user (`isActive: false`). -/
def carolInactive : User := ⟨2, "Carol", "c@b.com", "hash2", .manager, false, [], none⟩

/-! ## Helper lemmas -/

theorem maxRequests_eq : maxRequests = 60 := rfl

theorem windowMs_eq : windowMs = 60000 := rfl

/-- Pruning removes nothing when every recorded timestamp is still inside the
window. -/
theorem pruneRequests_eq_self (now : Int) (l : List Int)
    (h : ∀ x ∈ l, now - x < windowMs) : pruneRequests now l = l := by
  unfold pruneRequests
  rw [List.filter_eq_self]
  intro x hx
  exact decide_eq_true (h x hx)

/-- Pruning removes everything once the whole window has elapsed. -/
theorem pruneRequests_eq_nil (now : Int) (l : List Int)
    (h : ∀ x ∈ l, windowMs ≤ now - x) : pruneRequests now l = [] := by
  unfold pruneRequests
  rw [List.filter_eq_nil_iff]
  intro x hx
  simp only [decide_eq_true_eq, not_lt]
  exact h x hx

/-- One admission check never leaves more than `maxRequests` recorded
timestamps, provided the cap held before. -/
theorem canMakeRequest_card (now : Int) (l : List Int)
    (h : l.length ≤ maxRequests) :
    (canMakeRequest now l).2.length ≤ maxRequests := by
  have hp : (pruneRequests now l).length ≤ l.length := List.length_filter_le _ _
  unfold canMakeRequest
  split
  · exact le_trans hp h
  · next hlt =>
    simp only [List.length_append, List.length_cons, List.length_nil]
    omega

/-- The cap `length ≤ maxRequests` is an invariant of any sequence of
admission checks. -/
theorem runCalls_card (ts : List Int) :
    ∀ l : List Int, l.length ≤ maxRequests →
      (runCalls ts l).2.length ≤ maxRequests := by
  induction ts with
  | nil => intro l h; exact h
  | cons t ts ih =>
    intro l h
    exact ih _ (canMakeRequest_card t l h)

/-- Every timestamp stored after an admission check lies inside the window of
the check's clock. -/
theorem canMakeRequest_mem_window (now : Int) (l : List Int) :
    ∀ x ∈ (canMakeRequest now l).2, now - x < windowMs := by
  intro x hx
  unfold canMakeRequest at hx
  split at hx
  · have := (List.mem_filter.mp hx).2
    exact of_decide_eq_true this
  · rcases List.mem_append.mp hx with hx' | hx'
    · have := (List.mem_filter.mp hx').2
      exact of_decide_eq_true this
    · have hx0 : x = now := by simpa using hx'
      subst hx0
      simp [windowMs]

/-- While the window stays under capacity, every admission check succeeds and
simply appends its timestamp: provided all times (recorded and incoming) lie
in one window `[base, base + windowMs)` and the total count fits the cap. -/
theorem runCalls_admits_under_cap (base : Int) :
    ∀ (ts l : List Int),
      (∀ x ∈ l, base ≤ x ∧ x < base + windowMs) →
      (∀ x ∈ ts, base ≤ x ∧ x < base + windowMs) →
      l.length + ts.length ≤ maxRequests →
      runCalls ts l = (List.replicate ts.length true, l ++ ts) := by
  intro ts
  induction ts with
  | nil =>
    intro l _ _ _
    simp [runCalls]
  | cons t ts ih =>
    intro l hl hts hlen
    have ht : base ≤ t ∧ t < base + windowMs := hts t (List.mem_cons_self t ts)
    have hprune : pruneRequests t l = l := by
      apply pruneRequests_eq_self
      intro x hx
      have hx' := hl x hx
      omega
    have hcap : ¬ maxRequests ≤ (pruneRequests t l).length := by
      rw [hprune, maxRequests_eq]
      rw [maxRequests_eq] at hlen
      simp only [List.length_cons] at hlen
      omega
    have hcan : canMakeRequest t l = (true, l ++ [t]) := by
      unfold canMakeRequest
      rw [hprune]
      rw [hprune] at hcap
      simp [hcap]
    have hrec := ih (l ++ [t])
      (by
        intro x hx
        rcases List.mem_append.mp hx with hx' | hx'
        · exact hl x hx'
        · have hx0 : x = t := by simpa using hx'
          subst hx0
          exact ht)
      (fun x hx => hts x (List.mem_cons_of_mem t hx))
      (by
        simp only [List.length_append, List.length_cons, List.length_nil] at *
        omega)
    show (let r := canMakeRequest t l
          let rest := runCalls ts r.2
          (r.1 :: rest.1, rest.2)) = _
    rw [hcan]
    simp only [hrec, List.replicate_succ, List.length_cons]
    simp [List.append_assoc]

/-! ## Claims about the rate limiter -/

/-- Claim C4, counterexample: with the window at capacity (60 recorded calls
at time 0), the 61st call at time 0 is rejected — but what reaches the caller
is the generic failure, not a distinguishable rate-limit kind with a
retry-after duration: it is the very same error value that a malformed
response body produces on an admitted call, so the two cases are
indistinguishable and no retry-after hint survives. -/
theorem C4_counterexample :
    generateProjectSuggestions 0 (List.replicate 60 0) [] =
      some ⟨.error .genericFailure, List.replicate 60 0, 0, 0⟩
    ∧ generateProjectSuggestions 0 [] [.success 200 ⟨[]⟩] =
        some ⟨.error .genericFailure, [0], 1, 0⟩ :=
  ⟨rfl, rfl⟩

/-- Claim C4 (amended): starting from an empty window, 60 calls whose times
all lie in one window `[base, base + windowMs)` all succeed; a 61st call in
the same window is rejected without consuming quota (the recorded list stays
as it was), but the rejection surfaces as the indistinct generic failure —
the rate-limit error of line 39 is swallowed by the function's own catch-all,
so no `RateLimitExceeded` kind and no retry-after duration reach the caller;
once the window has elapsed (`trec` at least `windowMs` past every recorded
time) a call succeeds again. -/
theorem C4_rate_window_cycle (base : Int) (ts : List Int) (t61 trec : Int)
    (hlen : ts.length = 60)
    (hts : ∀ x ∈ ts, base ≤ x ∧ x < base + windowMs)
    (h61 : base ≤ t61 ∧ t61 < base + windowMs)
    (hrec : ∀ x ∈ ts, windowMs ≤ trec - x) :
    runCalls ts [] = (List.replicate 60 true, ts)
    ∧ generateProjectSuggestions t61 ts [] =
        some ⟨.error .genericFailure, ts, 0, 0⟩
    ∧ canMakeRequest trec ts = (true, [trec]) := by
  have hprune61 : pruneRequests t61 ts = ts := by
    apply pruneRequests_eq_self
    intro x hx
    have := hts x hx
    omega
  have hcan61 : canMakeRequest t61 ts = (false, ts) := by
    unfold canMakeRequest
    rw [hprune61]
    simp [hlen, maxRequests_eq]
  refine ⟨?_, ?_, ?_⟩
  · have := runCalls_admits_under_cap base ts []
      (by intro x hx; simp at hx) hts (by simp [hlen, maxRequests_eq])
    simpa [hlen] using this
  · unfold generateProjectSuggestions
    rw [hcan61]
    simp [mapCatchError]
  · unfold canMakeRequest
    rw [pruneRequests_eq_nil trec ts hrec]
    simp [maxRequests_eq]

/-- Claim C4, witness: 60 calls at time 0 all pass, the 61st call at time 0 is
rejected as the generic failure while leaving the recorded list unchanged,
and a call at time 60000 passes. -/
theorem C4_rate_window_cycle_witness :
    runCalls (List.replicate 60 0) [] =
      (List.replicate 60 true, List.replicate 60 0)
    ∧ generateProjectSuggestions 0 (List.replicate 60 0) [] =
        some ⟨.error .genericFailure, List.replicate 60 0, 0, 0⟩
    ∧ canMakeRequest 60000 (List.replicate 60 0) = (true, [60000]) :=
  C4_rate_window_cycle 0 (List.replicate 60 0) 0 60000
    (by decide)
    (by intro x hx; rw [List.eq_of_mem_replicate hx]; exact ⟨le_refl 0, by decide⟩)
    ⟨le_refl 0, by decide⟩
    (by intro x hx; rw [List.eq_of_mem_replicate hx]; decide)

/-- Claim C10 (confirmed): after any admission check run on a state reachable
from the empty window, the stored list holds only timestamps inside the
window of the check's clock and at most `maxRequests` of them; and a rejected
check leaves exactly the pruned list, appending nothing. -/
theorem C10_limiter_invariant (history : List Int) (now : Int) :
    (canMakeRequest now (runCalls history []).2).2.length ≤ maxRequests
    ∧ (∀ x ∈ (canMakeRequest now (runCalls history []).2).2, now - x < windowMs)
    ∧ ((canMakeRequest now (runCalls history []).2).1 = false →
        (canMakeRequest now (runCalls history []).2).2 =
          pruneRequests now (runCalls history []).2) := by
  refine ⟨?_, canMakeRequest_mem_window _ _, ?_⟩
  · exact canMakeRequest_card now _ (runCalls_card history [] (by simp [maxRequests_eq]))
  · intro hrej
    unfold canMakeRequest at hrej ⊢
    by_cases h : maxRequests ≤ (pruneRequests now (runCalls history []).2).length
    · rw [if_pos h]
    · rw [if_neg h] at hrej
      simp at hrej

/-- Claim C10, witness: after 61 calls at time 0, the state holds 60
timestamps, all inside the window, and the rejected 61st call appended
nothing. -/
theorem C10_limiter_invariant_witness :
    (canMakeRequest 0 (runCalls (List.replicate 60 0) []).2).2.length ≤ maxRequests
    ∧ (∀ x ∈ (canMakeRequest 0 (runCalls (List.replicate 60 0) []).2).2,
        (0 : Int) - x < windowMs)
    ∧ ((canMakeRequest 0 (runCalls (List.replicate 60 0) []).2).1 = false →
        (canMakeRequest 0 (runCalls (List.replicate 60 0) []).2).2 =
          pruneRequests 0 (runCalls (List.replicate 60 0) []).2) :=
  C10_limiter_invariant (List.replicate 60 0) 0

/-! ## Claims about the retry policy -/

/-- A non-429 rejection makes the retry loop re-throw at once: one attempt,
no backoff sleep. -/
theorem retryLoop_throws_non429 (e : AxiosError) (rest : List AttemptResult)
    (h : e.responseStatus ≠ some 429) :
    retryLoop (.failure e :: rest) 0 0 0 = some (.threw e 1 0) := by
  simp [retryLoop, h]

/-- Claim C2, counterexample: a call whose first attempt fails with a
connect/read timeout — a transient failure in the spec's sense — and whose
second attempt would succeed is not retried: the executor makes exactly one
attempt, sleeps no backoff, and surfaces the timeout error instead of the
available success. -/
theorem C2_timeout_counterexample :
    isTransientSpec timeoutErr = true
    ∧ generateProjectSuggestions 0 [] [.failure timeoutErr, .success 200 okBody] =
        some ⟨.error .requestTimeout, [0], 1, 0⟩ :=
  ⟨rfl, rfl⟩

/-- Claim C2 (amended): a connect/read timeout (`ECONNABORTED`/`ETIMEDOUT`,
no HTTP response) is NOT treated as transient: the executor makes exactly one
attempt, performs no backoff, and propagates the distinguishable timeout
error immediately; only HTTP 429 enters the retry path. -/
theorem C2_timeout_propagates_immediately (now : Int) (requests : List Int)
    (e : AxiosError) (rest : List AttemptResult)
    (hstatus : e.responseStatus = none)
    (hcode : e.code = some codeConnAborted ∨ e.code = some codeTimedOut)
    (hallow : (canMakeRequest now requests).1 = true) :
    generateProjectSuggestions now requests (.failure e :: rest) =
      some ⟨.error .requestTimeout, (canMakeRequest now requests).2, 1, 0⟩ := by
  have hloop := retryLoop_throws_non429 e rest (by simp [hstatus])
  have hmap : mapCatchError e = .requestTimeout := by
    rcases hcode with hc | hc <;> simp [mapCatchError, hstatus, hc]
  simp [generateProjectSuggestions, hallow, hloop, hmap]

/-- Claim C2, witness: at time 0 with an empty window, a first-attempt
timeout surfaces as the timeout failure after a single attempt. -/
theorem C2_timeout_propagates_immediately_witness :
    generateProjectSuggestions 0 [] [.failure timeoutErr, .success 200 okBody] =
      some ⟨.error .requestTimeout, (canMakeRequest 0 []).2, 1, 0⟩ :=
  C2_timeout_propagates_immediately 0 [] timeoutErr [.success 200 okBody]
    rfl (Or.inl rfl) rfl

/-- Claim C3, counterexample: a target failing with a spec-transient error
(a timeout) on the first two attempts and succeeding on the third does not
yield the successful payload after backoff — the executor stops after one
attempt with the timeout error and zero accumulated delay. -/
theorem C3_timeout_counterexample :
    isTransientSpec timeoutErr = true
    ∧ generateProjectSuggestions 0 []
        [.failure timeoutErr, .failure timeoutErr, .success 200 okBody] =
        some ⟨.error .requestTimeout, [0], 1, 0⟩ :=
  ⟨rfl, rfl⟩

/-- Claim C3 (amended, transient restricted to HTTP 429): a target that fails
with HTTP 429 on the first 2 attempts and succeeds on the 3rd yields the
extracted payload after exactly 3 attempts with accumulated backoff exactly
`baseDelay + 2 * baseDelay`; a target that fails with HTTP 429 on all 3
attempts yields the upstream-unavailable failure after exactly 3 attempts. -/
theorem C3_429_retry_and_exhaustion (now : Int) (requests : List Int)
    (e1 e2 e3 : AxiosError) (data : GeminiData) (text : String)
    (rest : List AttemptResult)
    (h1 : e1.responseStatus = some 429) (h2 : e2.responseStatus = some 429)
    (h3 : e3.responseStatus = some 429)
    (hdata : extractText data = some text)
    (hallow : (canMakeRequest now requests).1 = true) :
    generateProjectSuggestions now requests
        (.failure e1 :: .failure e2 :: .success 200 data :: rest) =
      some ⟨.ok text, (canMakeRequest now requests).2, 3, baseDelay + 2 * baseDelay⟩
    ∧ generateProjectSuggestions now requests
        (.failure e1 :: .failure e2 :: .failure e3 :: rest) =
      some ⟨.error .serviceUnavailable, (canMakeRequest now requests).2, 3,
        baseDelay + 2 * baseDelay⟩ := by
  have hloopOk : retryLoop (.failure e1 :: .failure e2 :: .success 200 data :: rest)
      0 0 0 = some (.broke 200 data 3 (baseDelay + 2 * baseDelay)) := by
    simp [retryLoop, h1, h2, maxRetries, baseDelay]
  have hloopBad : retryLoop (.failure e1 :: .failure e2 :: .failure e3 :: rest)
      0 0 0 = some (.threw e3 3 (baseDelay + 2 * baseDelay)) := by
    simp [retryLoop, h1, h2, h3, maxRetries, baseDelay]
  have hmap : mapCatchError e3 = .serviceUnavailable := by
    simp [mapCatchError, h3]
  constructor
  · simp [generateProjectSuggestions, hallow, hloopOk, hdata]
  · simp [generateProjectSuggestions, hallow, hloopBad, hmap]

/-- Claim C3, witness: 429, 429, success yields the payload after 3 attempts
and 3000 ms of backoff; 429, 429, 429 yields the unavailable failure after 3
attempts. -/
theorem C3_429_retry_and_exhaustion_witness :
    generateProjectSuggestions 0 []
        [.failure err429, .failure err429, .success 200 okBody] =
      some ⟨.ok "ok", (canMakeRequest 0 []).2, 3, baseDelay + 2 * baseDelay⟩
    ∧ generateProjectSuggestions 0 []
        [.failure err429, .failure err429, .failure err429] =
      some ⟨.error .serviceUnavailable, (canMakeRequest 0 []).2, 3,
        baseDelay + 2 * baseDelay⟩ :=
  C3_429_retry_and_exhaustion 0 [] err429 err429 err429 okBody "ok" []
    rfl rfl rfl rfl rfl

/-- Claim C7 (confirmed): a non-transient HTTP 403 rejection is never
retried — exactly one attempt is made, no backoff is slept, and the
distinguishable access-denied failure is returned. -/
theorem C7_403_not_retried (now : Int) (requests : List Int)
    (e : AxiosError) (rest : List AttemptResult)
    (hstatus : e.responseStatus = some 403)
    (hallow : (canMakeRequest now requests).1 = true) :
    generateProjectSuggestions now requests (.failure e :: rest) =
      some ⟨.error .apiAccessDenied, (canMakeRequest now requests).2, 1, 0⟩ := by
  have hloop := retryLoop_throws_non429 e rest (by simp [hstatus])
  have hmap : mapCatchError e = .apiAccessDenied := by
    simp [mapCatchError, hstatus]
  simp [generateProjectSuggestions, hallow, hloop, hmap]

/-- Claim C7, witness: a first-attempt 403 surfaces as the access-denied
failure after a single attempt. -/
theorem C7_403_not_retried_witness :
    generateProjectSuggestions 0 [] [.failure err403, .success 200 okBody] =
      some ⟨.error .apiAccessDenied, (canMakeRequest 0 []).2, 1, 0⟩ :=
  C7_403_not_retried 0 [] err403 [.success 200 okBody] rfl rfl

/-! ## Claims about the session manager -/

/-- A successful `jwt.verify` returns exactly the token's payload. -/
theorem jwtVerify_ok_eq {α : Type} {tok : Signed α} {s : String} {now : Int}
    {c : α} (h : jwtVerify tok s now = .ok c) : c = tok.payload := by
  unfold jwtVerify at h
  split_ifs at h
  injection h with h'
  exact h'.symm

/-- Claim C1, counterexample: at `now = 100`, refreshing with a token that is
still listed in the principal's store but expired at `t = 0` yields the very
same `invalidToken` rejection (401 "Invalid refresh token") as refreshing
with an unexpired token that is absent from the store — the route's catch-all
swallows `TokenExpiredError`, so no distinguishable `TokenExpired` failure
exists and the two cases are indistinguishable to the caller. -/
theorem C1_counterexample :
    (refresh [aliceExpired] (some rtokExpired) 100).1 = RefreshResult.invalidToken
    ∧ (refresh [aliceExpired] (some rtokFresh) 100).1 = RefreshResult.invalidToken :=
  ⟨rfl, rfl⟩

/-- Claim C1 (amended): a syntactically valid but expired refresh token and a
verifying token absent from the principal's store both fail with the single
`invalidToken` rejection; the two failure kinds coincide and are therefore
not distinguishable to the caller. -/
theorem C1_refresh_failures_collapse (db : List User)
    (tokE tokR : Signed RefreshClaims) (now : Int)
    (hEsig : tokE.signedWith = jwtRefreshSecret) (hEexp : tokE.exp ≤ now)
    (hRok : jwtVerify tokR jwtRefreshSecret now = .ok tokR.payload)
    (hRgone : ∀ u ∈ db, u.id = tokR.payload.userId →
      tokR ∈ u.refreshTokens → u.isActive = false) :
    (refresh db (some tokE) now).1 = RefreshResult.invalidToken
    ∧ (refresh db (some tokR) now).1 = RefreshResult.invalidToken := by
  constructor
  · have hv : jwtVerify tokE jwtRefreshSecret now = .expired := by
      unfold jwtVerify
      rw [if_neg (by simp [hEsig]), if_pos hEexp]
    simp [refresh, hv]
  · have hnone : db.find? (fun u =>
        u.id == tokR.payload.userId && decide (tokR ∈ u.refreshTokens)
          && u.isActive) = none := by
      rw [List.find?_eq_none]
      intro u hu hpred
      simp only [Bool.and_eq_true, beq_iff_eq, decide_eq_true_eq] at hpred
      obtain ⟨⟨hid, hmem⟩, hact⟩ := hpred
      rw [hRgone u hu hid hmem] at hact
      exact Bool.false_ne_true hact
    simp [refresh, hRok, hnone]

/-- Claim C1, witness: at `now = 50`, the expired-token and revoked-token
failures coincide on a concrete store. -/
theorem C1_refresh_failures_collapse_witness :
    (refresh [aliceExpired] (some rtokExpired) 50).1 = RefreshResult.invalidToken
    ∧ (refresh [aliceExpired] (some rtokFresh) 50).1 = RefreshResult.invalidToken :=
  C1_refresh_failures_collapse [aliceExpired] rtokExpired rtokFresh 50
    rfl (by decide) (by decide) (by decide)

/-- Claim C5 (confirmed): when every principal carrying the given email is
inactive, `login` fails with `invalidCredentials` no matter what secret is
supplied and no matter how the hash comparison behaves. -/
theorem C5_login_inactive_fails (compare : String → String → Bool)
    (db : List User) (email password : String) (now : Int)
    (hinactive : ∀ u ∈ db, u.email = email → u.isActive = false) :
    (login compare db email password now).1 = LoginResult.invalidCredentials := by
  have hnone : db.find? (fun u => u.email == email && u.isActive) = none := by
    rw [List.find?_eq_none]
    intro u hu hpred
    simp only [Bool.and_eq_true, beq_iff_eq] at hpred
    obtain ⟨hmail, hact⟩ := hpred
    rw [hinactive u hu hmail] at hact
    exact Bool.false_ne_true hact
  simp [login, hnone]

/-- Claim C5, witness: the inactive user fails login even with the correct
stored credential and an honest comparison function. -/
theorem C5_login_inactive_fails_witness :
    (login (fun s h => s == h) [carolInactive] "c@b.com" "hash2" 0).1 =
      LoginResult.invalidCredentials :=
  C5_login_inactive_fails (fun s h => s == h) [carolInactive] "c@b.com" "hash2" 0
    (by decide)

/-- Claim C6 (confirmed): after `logoutAll` (the `/logout-all` handler) clears
the principal's store, any refresh token carrying that principal's id fails
`refresh` with `invalidToken`; meanwhile any unexpired access token signed
with the access secret still passes signature/expiry verification. -/
theorem C6_revokeAll_semantics (db : List User) (uid : Nat)
    (tok : Signed RefreshClaims) (atok : Signed AccessClaims) (now : Int)
    (htok : tok.payload.userId = uid)
    (hsig : atok.signedWith = jwtSecret) (hexp : now < atok.exp) :
    (refresh (logoutAll db uid) (some tok) now).1 = RefreshResult.invalidToken
    ∧ jwtVerify atok jwtSecret now = VerifyResult.ok atok.payload := by
  constructor
  · cases hv : jwtVerify tok jwtRefreshSecret now with
    | expired => simp [refresh, hv]
    | invalid => simp [refresh, hv]
    | ok claims =>
      have hc : claims = tok.payload := jwtVerify_ok_eq hv
      subst hc
      have hnone : (logoutAll db uid).find? (fun u =>
          u.id == tok.payload.userId && decide (tok ∈ u.refreshTokens)
            && u.isActive) = none := by
        rw [List.find?_eq_none]
        intro u hu hpred
        simp only [Bool.and_eq_true, beq_iff_eq, decide_eq_true_eq] at hpred
        obtain ⟨⟨hid, hmem⟩, _⟩ := hpred
        rw [logoutAll] at hu
        rcases List.mem_map.mp hu with ⟨v, hv', heq⟩
        by_cases hvid : v.id = uid
        · rw [if_pos hvid] at heq
          rw [← heq] at hmem
          simp at hmem
        · rw [if_neg hvid] at heq
          rw [← heq] at hid
          exact hvid (by rw [hid, htok])
      simp [refresh, hv, hnone]
  · unfold jwtVerify
    rw [if_neg (by simp [hsig]), if_neg (not_le.mpr hexp)]

/-- Claim C6, witness: after revoking all of user 1's sessions, the
still-listed fresh refresh token fails, while the unexpired access token
still verifies. -/
theorem C6_revokeAll_semantics_witness :
    (refresh (logoutAll [aliceFresh] 1) (some rtokFresh) 50).1 =
      RefreshResult.invalidToken
    ∧ jwtVerify atokFresh jwtSecret 50 = VerifyResult.ok atokFresh.payload :=
  C6_revokeAll_semantics [aliceFresh] 1 rtokFresh atokFresh 50
    rfl rfl (by decide)

/-- The `/refresh` handler performs no persistence write on any path. -/
theorem refresh_preserves_db (db : List User)
    (cookie : Option (Signed RefreshClaims)) (now : Int) :
    (refresh db cookie now).2 = db := by
  unfold refresh
  split
  · rfl
  · split
    · split <;> rfl
    · rfl
    · rfl

/-- Claim C9 (confirmed): a successful `refresh` leaves the persisted state
untouched — the principal's store (and every other field) is unchanged, the
supplied refresh token is still listed (not rotated), and the only thing
issued is a freshly minted access token for the found principal. -/
theorem C9_refresh_frame (db : List User) (tok : Signed RefreshClaims)
    (now : Int) (atok : Signed AccessClaims)
    (hsucc : (refresh db (some tok) now).1 = RefreshResult.success atok) :
    (refresh db (some tok) now).2 = db
    ∧ ∃ u, u ∈ db ∧ tok ∈ u.refreshTokens ∧ u.isActive = true
        ∧ atok = mkAccessToken u now := by
  refine ⟨refresh_preserves_db db (some tok) now, ?_⟩
  simp only [refresh] at hsucc
  split at hsucc
  · rename_i claims heq
    split at hsucc
    · rename_i u hfind
      have hmemdb : u ∈ db := List.mem_of_find?_eq_some hfind
      have hpred := List.find?_some hfind
      simp only [Bool.and_eq_true, beq_iff_eq, decide_eq_true_eq] at hpred
      obtain ⟨⟨_, hmem⟩, hact⟩ := hpred
      simp only [RefreshResult.success.injEq] at hsucc
      exact ⟨u, hmemdb, hmem, hact, hsucc.symm⟩
    · simp at hsucc
  · simp at hsucc
  · simp at hsucc

/-- Claim C9, witness: a concrete successful refresh returns the fresh access
token, and the store still lists the original refresh token. -/
theorem C9_refresh_frame_witness :
    (refresh [aliceFresh] (some rtokFresh) 50).2 = [aliceFresh]
    ∧ ∃ u, u ∈ [aliceFresh] ∧ rtokFresh ∈ u.refreshTokens ∧ u.isActive = true
        ∧ mkAccessToken aliceFresh 50 = mkAccessToken u 50 :=
  C9_refresh_frame [aliceFresh] rtokFresh 50 (mkAccessToken aliceFresh 50) rfl

/-- Claim C8 (confirmed): for an authenticated request, `authorize` passes
iff the allow-set is empty (any role) or the principal's role is a member of
the allow-set — pure membership, no implicit hierarchy. -/
theorem C8_authorize_iff_membership (roles : List Role) (u : ReqUser) :
    authorize roles (some u) = AuthzOutcome.ok ↔ (roles = [] ∨ u.role ∈ roles) := by
  by_cases hnil : roles = []
  · subst hnil
    simp [authorize]
  · by_cases hmem : u.role ∈ roles
    · simp [authorize, hmem]
    · have hlen : roles.length ≠ 0 := by
        simpa [List.length_eq_zero] using hnil
      simp [authorize, hmem, hnil, hlen]

/-- Claim C8, witness: a manager is authorized against the allow-set
containing exactly the manager role. -/
theorem C8_authorize_iff_membership_witness :
    authorize [Role.manager] (some ⟨1, "e@b.com", Role.manager, "E"⟩) =
        AuthzOutcome.ok
      ↔ ([Role.manager] = ([] : List Role) ∨ Role.manager ∈ [Role.manager]) :=
  C8_authorize_iff_membership [Role.manager] ⟨1, "e@b.com", Role.manager, "E"⟩

end InoxDev
